import Mathlib

set_option maxHeartbeats 1000000

namespace Veil

/-- An opaque payload as the server sees it: a byte string it treats as an
uninterpreted value (spec section 6: the payload is an opaque byte string). -/
abbrev Payload := List Nat

/-- One Socket.IO emission produced by the server: the socket id it is pushed to
and the payload bytes delivered on the message event. -/
structure Emission where
  recipient : Nat
  payload : Payload
deriving DecidableEq, Repr

/-- Console output the two server stubs produce: the connect and disconnect
handlers log the socket id, and the scaffolded server.ts additionally logs
receipt of each message frame. -/
inductive LogEntry where
  | connected (sid : Nat)
  | disconnected (sid : Nat)
  | messageReceived (sid : Nat)
deriving DecidableEq, Repr

/-- Transport events delivered to the server by the Socket.IO runtime. A
transport-level I/O failure (broken pipe, timeout) surfaces as a disconnect
event for the affected socket, never as a distinct fatal event. -/
inductive Event where
  | connect (sid : Nat)
  | disconnect (sid : Nat)
  | message (sender : Nat) (payload : Payload)
deriving DecidableEq, Repr

/-- The server's in-memory connection state: the set of currently connected
socket ids (kept by the Socket.IO runtime, in connection order) and the console
log produced so far. -/
structure ServerState where
  connected : List Nat
  log : List LogEntry
deriving DecidableEq, Repr

/-- The state of a freshly started server process: no connections, no log. -/
def initialState : ServerState := { connected := [], log := [] }

namespace ServerTs

/-- Embeds socket.broadcast.emit of the server.ts stub written by
setup-veil.sh: the payload is pushed, unmodified, to every currently connected
socket other than the sender. -/
def broadcastEmit (connected : List Nat) (sender : Nat) (payload : Payload) :
    List Emission :=
  (connected.filter (fun c => c != sender)).map
    (fun c => { recipient := c, payload := payload })

/-- Embeds the scaffolded server.ts from setup-veil.sh: on connection the
socket id is logged and the socket joins the connected set; the message handler
logs receipt and calls socket.broadcast.emit with the received payload; the
disconnect handler logs the socket id while the runtime drops the socket from
the connected set. -/
def step (s : ServerState) : Event → ServerState × List Emission
  | .connect sid =>
      ({ s with
          connected := if sid ∈ s.connected then s.connected else s.connected ++ [sid],
          log := s.log ++ [.connected sid] }, [])
  | .disconnect sid =>
      ({ s with
          connected := s.connected.filter (fun c => c != sid),
          log := s.log ++ [.disconnected sid] }, [])
  | .message sender payload =>
      if sender ∈ s.connected then
        ({ s with log := s.log ++ [.messageReceived sender] },
          broadcastEmit s.connected sender payload)
      else (s, [])

/-- Embeds the /health route of the scaffolded server.ts and the routing table
it registers on the Express app: only GET /health is installed. -/
def httpRoutes : List (String × String) := [("GET", "/health")]

end ServerTs

/-- An HTTP request as the /health handler sees it; the handler ignores every
part of it. -/
structure HttpRequest where
  method : String
  path : String
  body : Payload
deriving DecidableEq, Repr

/-- An HTTP response: status code and the single boolean field of the JSON body
the /health route produces. -/
structure HealthResponse where
  status : Nat
  ok : Bool
deriving DecidableEq, Repr

/-- Embeds app.get of the /health route in the scaffolded server.ts: it answers
every request with status 200 and JSON body with ok set to true, reading
nothing from the request and no process state. -/
def healthHandler (_req : HttpRequest) : HealthResponse :=
  { status := 200, ok := true }

namespace EntryPoint

/-- The socket event names for which the repository's checked-in backend entry
point registers a handler inside its connection callback: only the disconnect
logger. -/
def registeredSocketEvents : List String := ["disconnect"]

/-- Embeds the repository's actual backend entry point: its connection callback
logs the socket id and registers only a disconnect logger; no handler exists
for message frames, so an inbound message leaves the state untouched and emits
nothing. Connection bookkeeping is the Socket.IO runtime's. -/
def step (s : ServerState) : Event → ServerState × List Emission
  | .connect sid =>
      ({ s with
          connected := if sid ∈ s.connected then s.connected else s.connected ++ [sid],
          log := s.log ++ [.connected sid] }, [])
  | .disconnect sid =>
      ({ s with
          connected := s.connected.filter (fun c => c != sid),
          log := s.log ++ [.disconnected sid] }, [])
  | .message _ _ => (s, [])

end EntryPoint

lemma broadcastEmit_mem_iff (connected : List Nat) (sender : Nat) (p : Payload)
    (e : Emission) :
    e ∈ ServerTs.broadcastEmit connected sender p ↔
      (e.recipient ∈ connected ∧ e.recipient ≠ sender ∧ e.payload = p) := by
  unfold ServerTs.broadcastEmit
  simp only [List.mem_map, List.mem_filter, bne_iff_ne, ne_eq]
  constructor
  · rintro ⟨c, ⟨hc, hcs⟩, rfl⟩
    exact ⟨hc, hcs, rfl⟩
  · rintro ⟨hc, hcs, hp⟩
    refine ⟨e.recipient, ⟨hc, hcs⟩, ?_⟩
    cases e
    simp_all

lemma step_message_recipient_mem (s : ServerState) (sender : Nat) (p : Payload)
    (e : Emission) (he : e ∈ (ServerTs.step s (.message sender p)).2) :
    e.recipient ∈ s.connected ∧ e.recipient ≠ sender ∧ e.payload = p := by
  simp only [ServerTs.step] at he
  by_cases hs : sender ∈ s.connected
  · rw [if_pos hs] at he
    exact (broadcastEmit_mem_iff _ _ _ _).1 he
  · rw [if_neg hs] at he
    simp at he

/-- C1: every payload forwarded by the scaffolded server's message handler is
byte-for-byte the payload the sender supplied; the handler passes the opaque
bytes through without transforming them. -/
theorem server_forwards_payload_verbatim (s : ServerState) (sender : Nat)
    (p : Payload) (e : Emission)
    (he : e ∈ (ServerTs.step s (.message sender p)).2) :
    e.payload = p := by
  simp only [ServerTs.step] at he
  by_cases hs : sender ∈ s.connected
  · rw [if_pos hs] at he
    exact ((broadcastEmit_mem_iff s.connected sender p e).1 he).2.2
  · rw [if_neg hs] at he
    simp at he

/-- Witness for C1 at a concrete state: with sockets 1 and 2 connected, the
emission that socket 2 receives when socket 1 sends the bytes [7, 7, 7] carries
exactly those bytes. -/
theorem server_forwards_payload_verbatim_witness :
    ({ recipient := 2, payload := [7, 7, 7] } : Emission) ∈
        (ServerTs.step { connected := [1, 2], log := [] }
          (.message 1 [7, 7, 7])).2 ∧
      ({ recipient := 2, payload := [7, 7, 7] } : Emission).payload = [7, 7, 7] :=
  ⟨by decide,
    server_forwards_payload_verbatim { connected := [1, 2], log := [] } 1
      [7, 7, 7] { recipient := 2, payload := [7, 7, 7] } (by decide)⟩

/-- C10: the set of sockets that receive a broadcast from the scaffolded
server, and the resulting connection state, are independent of the opaque
payload bytes: two sends from the same sender in the same state reach exactly
the same recipients. -/
theorem routing_independent_of_payload (s : ServerState) (sender : Nat)
    (p₁ p₂ : Payload) :
    ((ServerTs.step s (.message sender p₁)).2.map Emission.recipient)
        = ((ServerTs.step s (.message sender p₂)).2.map Emission.recipient) ∧
      ((ServerTs.step s (.message sender p₁)).1).connected
        = ((ServerTs.step s (.message sender p₂)).1).connected := by
  simp only [ServerTs.step]
  by_cases hs : sender ∈ s.connected
  · rw [if_pos hs, if_pos hs]
    unfold ServerTs.broadcastEmit
    simp [List.map_map, Function.comp]
  · rw [if_neg hs, if_neg hs]
    exact ⟨rfl, rfl⟩

/-- C2: in the scaffolded server stub, a message frame from a connected client
is delivered to every other currently connected client and only to those — the
handler consults no room membership and no target field, so the recipient set
is all other connections. -/
theorem stub_broadcasts_to_all_other_clients (s : ServerState) (sender : Nat)
    (p : Payload) (hs : sender ∈ s.connected) :
    (∀ c, c ∈ s.connected → c ≠ sender →
        ({ recipient := c, payload := p } : Emission) ∈
          (ServerTs.step s (.message sender p)).2) ∧
      (∀ e, e ∈ (ServerTs.step s (.message sender p)).2 →
        e.recipient ∈ s.connected ∧ e.recipient ≠ sender) := by
  simp only [ServerTs.step, if_pos hs]
  constructor
  · intro c hc hcs
    exact (broadcastEmit_mem_iff _ _ _ _).2 ⟨hc, hcs, rfl⟩
  · intro e he
    have h := (broadcastEmit_mem_iff _ _ _ _).1 he
    exact ⟨h.1, h.2.1⟩

/-- Witness for C2 at a concrete state: with sockets 1, 2, 3 connected and
socket 1 sending, socket 3 receives the broadcast. -/
theorem stub_broadcasts_to_all_other_clients_witness :
    ({ recipient := 3, payload := [5] } : Emission) ∈
      (ServerTs.step { connected := [1, 2, 3], log := [] } (.message 1 [5])).2 :=
  (stub_broadcasts_to_all_other_clients { connected := [1, 2, 3], log := [] }
      1 [5] (by decide)).1 3 (by decide) (by decide)

/-- C3: in the scenario where session A sends an envelope while another member
B is connected, the stub's broadcast delivers the envelope to B exactly once,
and no emission of that send targets A itself (socket.broadcast.emit excludes
the sender). Room targeting is ignored by the stub, so B's membership in the
room makes no difference to this outcome. -/
theorem room_send_delivered_exactly_once (s : ServerState) (A B : Nat)
    (p : Payload) (hnd : s.connected.Nodup) (hA : A ∈ s.connected)
    (hB : B ∈ s.connected) (hAB : A ≠ B) :
    ((ServerTs.step s (.message A p)).2.count
        { recipient := B, payload := p }) = 1 ∧
      (∀ e, e ∈ (ServerTs.step s (.message A p)).2 → e.recipient ≠ A) := by
  simp only [ServerTs.step, if_pos hA]
  constructor
  · unfold ServerTs.broadcastEmit
    have hinj : Function.Injective
        (fun c => ({ recipient := c, payload := p } : Emission)) := by
      intro a b hab
      simpa using congrArg Emission.recipient hab
    rw [List.count_map_of_injective _ _ hinj B]
    refine List.count_eq_one_of_mem (hnd.filter _) ?_
    simp [List.mem_filter, hB, bne_iff_ne, Ne.symm hAB]
  · intro e he
    exact ((broadcastEmit_mem_iff _ _ _ _).1 he).2.1

/-- Witness for C3 at a concrete state: sockets 10 and 20 connected, socket 10
sends; socket 20 receives exactly one copy. -/
theorem room_send_delivered_exactly_once_witness :
    ((ServerTs.step { connected := [10, 20], log := [] }
        (.message 10 [1, 2])).2.count
      { recipient := 20, payload := [1, 2] }) = 1 :=
  (room_send_delivered_exactly_once { connected := [10, 20], log := [] }
      10 20 [1, 2] (by decide) (by decide) (by decide) (by decide)).1

/-- C4: the repository's checked-in backend entry point registers no handler
for message frames: any message event leaves the server state unchanged and
forwards nothing to anyone, while connect and disconnect merely log the socket
id and emit nothing. -/
theorem entry_point_never_forwards :
    (∀ s sender p, EntryPoint.step s (.message sender p) = (s, [])) ∧
      (∀ s sid, (EntryPoint.step s (.connect sid)).2 = [] ∧
        ((EntryPoint.step s (.connect sid)).1).log
          = s.log ++ [.connected sid]) ∧
      (∀ s sid, (EntryPoint.step s (.disconnect sid)).2 = [] ∧
        ((EntryPoint.step s (.disconnect sid)).1).log
          = s.log ++ [.disconnected sid]) ∧
      EntryPoint.registeredSocketEvents.contains "message" = false := by
  refine ⟨fun s sender p => rfl, fun s sid => ⟨rfl, rfl⟩,
    fun s sid => ⟨rfl, rfl⟩, by decide⟩

/-- C5: the scaffolded server's health route is registered and answers every
request with HTTP 200 and body ok = true, independent of the request and of
any other state: a successful response whenever the process runs. -/
theorem health_route_always_ok (req : HttpRequest) :
    healthHandler req = { status := 200, ok := true } ∧
      ("GET", "/health") ∈ ServerTs.httpRoutes :=
  ⟨rfl, by decide⟩

/-- C6: processing a disconnect event for a socket (which is also how the
transport surfaces I/O failures) removes every trace of that connection from
the server's in-memory connection state, in both the scaffolded stub and the
checked-in entry point; afterwards no broadcast of the stub can ever target
it until it reconnects. -/
theorem disconnect_destroys_session (s : ServerState) (sid : Nat) :
    sid ∉ ((ServerTs.step s (.disconnect sid)).1).connected ∧
      sid ∉ ((EntryPoint.step s (.disconnect sid)).1).connected ∧
      (∀ sender p e,
        e ∈ (ServerTs.step ((ServerTs.step s (.disconnect sid)).1)
              (.message sender p)).2 →
          e.recipient ≠ sid) := by
  refine ⟨?_, ?_, ?_⟩
  · simp [ServerTs.step, List.mem_filter]
  · simp [EntryPoint.step, List.mem_filter]
  · intro sender p e he
    have h := step_message_recipient_mem _ sender p e he
    intro heq
    have hmem := h.1
    rw [heq] at hmem
    simp [ServerTs.step, List.mem_filter] at hmem

/-- Witness for C6 at a concrete state: after socket 2 disconnects from a
server with sockets 1 and 2 connected, socket 2 is gone from the connected
set. -/
theorem disconnect_destroys_session_witness :
    2 ∉ ((ServerTs.step { connected := [1, 2], log := [] }
        (.disconnect 2)).1).connected :=
  (disconnect_destroys_session { connected := [1, 2], log := [] } 2).1

/-- Modelled from the spec: the delivery state of an Envelope in the Message
Relay (pending, delivered, expired); the relay itself is absent from the
source tree. -/
inductive DeliveryState where
  | pending
  | delivered
  | expired
deriving DecidableEq, Repr

/-- Modelled from the spec: the Envelope state machine — the only transitions
are pending to delivered and pending to expired, both terminal. -/
inductive EnvTransition : DeliveryState → DeliveryState → Prop where
  | deliver : EnvTransition .pending .delivered
  | expire : EnvTransition .pending .expired

/-- Modelled from the spec: the two relay actions that can touch an Envelope
after it is created — push it to its recipient, or expire it when its delivery
TTL elapses. -/
inductive RelayOp where
  | deliverTo (eid : Nat)
  | expireEnv (eid : Nat)
deriving DecidableEq, Repr

/-- Modelled from the spec: the single mutation point per envelope. A delivery
pushes the envelope (recording its id in the emission list) only when its state
is still pending and then marks it delivered; expiry likewise fires only from
pending. Terminal states are never touched again. -/
def relayStep (st : Nat → DeliveryState) : RelayOp → ((Nat → DeliveryState) × List Nat)
  | .deliverTo eid =>
      if st eid = .pending then
        (fun e => if e = eid then .delivered else st e, [eid])
      else (st, [])
  | .expireEnv eid =>
      if st eid = .pending then
        (fun e => if e = eid then .expired else st e, [])
      else (st, [])

/-- Modelled from the spec: a run of the relay over a sequence of actions,
collecting the ids of the envelopes actually pushed to recipients. -/
def relayRun (st : Nat → DeliveryState) : List RelayOp → ((Nat → DeliveryState) × List Nat)
  | [] => (st, [])
  | op :: ops =>
      let r := relayStep st op
      let rest := relayRun r.1 ops
      (rest.1, r.2 ++ rest.2)

/-- Every envelope starts its lifecycle in the pending state. -/
def initEnvStates : Nat → DeliveryState := fun _ => .pending

lemma relayRun_count_le (ops : List RelayOp) (st : Nat → DeliveryState)
    (eid : Nat) :
    ((relayRun st ops).2.count eid)
      ≤ (if st eid = DeliveryState.pending then 1 else 0) := by
  induction ops generalizing st with
  | nil => simp [relayRun]
  | cons op ops ih =>
    cases op with
    | deliverTo e2 =>
      by_cases hp : st e2 = DeliveryState.pending
      · have hrest := ih (fun e => if e = e2 then DeliveryState.delivered else st e)
        simp only [relayRun, relayStep, if_pos hp, List.count_append]
        by_cases heq : eid = e2
        · subst heq
          have hrest0 :
              ((relayRun (fun e => if e = eid then DeliveryState.delivered else st e)
                  ops).2.count eid) = 0 := by
            simpa using hrest
          have hone : List.count eid [eid] = 1 := by
            simp [List.count_singleton']
          rw [if_pos hp]
          omega
        · have hval : ((fun e => if e = e2 then DeliveryState.delivered else st e) eid)
              = st eid := by
            simp [heq]
          rw [if_neg heq] at hrest
          have hz : List.count eid [e2] = 0 := by
            simp [List.count_singleton', Ne.symm heq]
          omega
      · have hrest := ih st
        simp only [relayRun, relayStep, if_neg hp, List.count_append,
          List.count_nil]
        omega
    | expireEnv e2 =>
      by_cases hp : st e2 = DeliveryState.pending
      · have hrest := ih (fun e => if e = e2 then DeliveryState.expired else st e)
        simp only [relayRun, relayStep, if_pos hp, List.count_append,
          List.count_nil]
        by_cases heq : eid = e2
        · subst heq
          have hrest0 :
              ((relayRun (fun e => if e = eid then DeliveryState.expired else st e)
                  ops).2.count eid) = 0 := by
            simpa using hrest
          rw [if_pos hp]
          omega
        · have hval : ((fun e => if e = e2 then DeliveryState.expired else st e) eid)
              = st eid := by
            simp [heq]
          rw [if_neg heq] at hrest
          omega
      · have hrest := ih st
        simp only [relayRun, relayStep, if_neg hp, List.count_append,
          List.count_nil]
        omega

/-- C7: the envelope state machine admits exactly the transitions pending to
delivered and pending to expired (both terminal), and over any sequence of
relay actions an envelope is pushed to its recipient at most once — at-most-
once delivery with inherent duplicate suppression. -/
theorem envelope_at_most_once :
    (∀ a b, EnvTransition a b ↔
        (a = DeliveryState.pending ∧
          (b = DeliveryState.delivered ∨ b = DeliveryState.expired))) ∧
      (∀ (ops : List RelayOp) (eid : Nat),
        ((relayRun initEnvStates ops).2.count eid) ≤ 1) := by
  constructor
  · intro a b
    constructor
    · intro h
      cases h with
      | deliver => exact ⟨rfl, Or.inl rfl⟩
      | expire => exact ⟨rfl, Or.inr rfl⟩
    · rintro ⟨rfl, rfl | rfl⟩
      · exact .deliver
      · exact .expire
  · intro ops eid
    have h := relayRun_count_le ops initEnvStates eid
    simpa [initEnvStates] using h

/-- Modelled from the spec: the bounded per-recipient pending queue of the
Message Relay. Enqueueing into a full queue drops the oldest pending envelope
for that recipient. -/
def enqueuePending (cap : Nat) (q : List Payload) (e : Payload) : List Payload :=
  if q.length < cap then q ++ [e] else q.tail ++ [e]

/-- Modelled from the spec: sending a sequence of envelopes to an offline
recipient enqueues each of them in turn into its pending queue, starting
empty. -/
def sendToOffline (cap : Nat) (es : List Payload) : List Payload :=
  es.foldl (enqueuePending cap) []

lemma enqueuePending_length (cap : Nat) (q : List Payload) (e : Payload)
    (hcap : 1 ≤ cap) (hq : q.length ≤ cap) :
    (enqueuePending cap q e).length ≤ cap := by
  unfold enqueuePending
  by_cases h : q.length < cap
  · rw [if_pos h]
    simp only [List.length_append, List.length_singleton]
    omega
  · rw [if_neg h]
    simp only [List.length_append, List.length_singleton, List.length_tail]
    omega

lemma foldl_enqueuePending_length (cap : Nat) (hcap : 1 ≤ cap)
    (es : List Payload) (q : List Payload) (hq : q.length ≤ cap) :
    (es.foldl (enqueuePending cap) q).length ≤ cap := by
  induction es generalizing q with
  | nil => simpa [List.foldl] using hq
  | cons e es ih =>
    simp only [List.foldl]
    exact ih _ (enqueuePending_length cap q e hcap hq)

lemma foldl_enqueuePending_fill (cap : Nat) (es : List Payload)
    (q : List Payload) (h : q.length + es.length ≤ cap) :
    es.foldl (enqueuePending cap) q = q ++ es := by
  induction es generalizing q with
  | nil => simp
  | cons e es ih =>
    have hlt : q.length < cap := by
      simp only [List.length_cons] at h
      omega
    have hlen2 : (q ++ [e]).length + es.length ≤ cap := by
      simp only [List.length_append, List.length_singleton,
        List.length_cons, List.length_nil] at h ⊢
      omega
    rw [List.foldl_cons, enqueuePending, if_pos hlt, ih (q ++ [e]) hlen2]
    simp

/-- C8: sending capacity + 1 envelopes to an offline recipient leaves its
pending queue holding exactly the capacity most recent envelopes — the oldest
one is dropped — and a pending queue never holds more than capacity
envelopes. -/
theorem pending_queue_overflow (cap : Nat) (hcap : 1 ≤ cap) :
    (∀ es : List Payload, es.length = cap + 1 →
        sendToOffline cap es = es.drop 1) ∧
      (∀ es : List Payload, (sendToOffline cap es).length ≤ cap) := by
  constructor
  · intro es hlen
    rcases List.eq_nil_or_concat es with rfl | ⟨front, a, rfl⟩
    · exact absurd hlen (by simp)
    · rw [List.concat_eq_append] at hlen ⊢
      have hfront : front.length = cap := by
        simp only [List.length_append, List.length_singleton] at hlen
        omega
      unfold sendToOffline
      rw [List.foldl_append]
      rw [foldl_enqueuePending_fill cap front [] (by simpa using hfront.le)]
      rw [List.nil_append, List.foldl_cons, List.foldl_nil]
      rw [enqueuePending, if_neg (by omega)]
      rw [List.drop_append_of_le_length (by omega)]
      rw [List.drop_one]
  · intro es
    exact foldl_enqueuePending_length cap hcap es [] (by simp)

/-- Witness for C8 at capacity 2: sending three envelopes to an offline
recipient retains only the two most recent ones. -/
theorem pending_queue_overflow_witness :
    sendToOffline 2 [[1], [2], [3]] = [[1], [2], [3]].drop 1 :=
  (pending_queue_overflow 2 (by decide)).1 [[1], [2], [3]] (by decide)

/-- Modelled from the spec: a Session record of the Session Registry —
identifier, creation timestamp, last-activity timestamp and TTL; the registry
itself is absent from the source tree. -/
structure Session where
  sid : Nat
  createdAt : Nat
  lastActivity : Nat
  ttl : Nat
deriving DecidableEq, Repr

/-- Modelled from the spec: a Room of the Room Directory — identifier and the
set of member session identifiers. -/
structure Room where
  rid : Nat
  members : List Nat
deriving DecidableEq, Repr

/-- Modelled from the spec: the joint in-memory state of the Session Registry
(which exclusively owns Session records) and the Room Directory (which holds
non-owning session identifiers). -/
structure Registry where
  sessions : List Session
  rooms : List Room
deriving DecidableEq, Repr

/-- Modelled from the spec: destroy removes the session record and every
membership of that session in every room. -/
def destroy (r : Registry) (target : Nat) : Registry :=
  { sessions := r.sessions.filter (fun s => s.sid != target),
    rooms := r.rooms.map
      (fun rm => { rm with members := rm.members.filter (fun m => m != target) }) }

/-- Modelled from the spec: lookup returns the Session record, or none for
NotFound when the session is absent. -/
def lookup (r : Registry) (target : Nat) : Option Session :=
  r.sessions.find? (fun s => s.sid == target)

lemma destroy_members_filter (r : Registry) (target : Nat) (rm : Room)
    (hrm : rm ∈ (destroy r target).rooms) : target ∉ rm.members := by
  simp only [destroy, List.mem_map] at hrm
  obtain ⟨rm0, _, rfl⟩ := hrm
  intro hmem
  simp [List.mem_filter] at hmem

/-- C9: destroying a session removes its record — lookup afterwards reports
NotFound — removes all of its room memberships, and destroying an already
destroyed session is a no-op, not an error (destroy is idempotent). -/
theorem destroy_idempotent_lookup_notfound (r : Registry) (target : Nat) :
    lookup (destroy r target) target = none ∧
      destroy (destroy r target) target = destroy r target ∧
      (∀ rm, rm ∈ (destroy r target).rooms → target ∉ rm.members) := by
  refine ⟨?_, ?_, fun rm hrm => destroy_members_filter r target rm hrm⟩
  · simp only [lookup, destroy]
    rw [List.find?_eq_none]
    intro s hs
    simp only [List.mem_filter, bne_iff_ne, ne_eq] at hs
    simp [hs.2]
  · simp only [destroy, List.filter_filter, List.map_map]
    congr 1
    · apply List.filter_congr
      intro s _
      simp [Bool.and_self]
    · apply List.map_congr_left
      intro rm _
      simp [Function.comp, List.filter_filter, Bool.and_self]

/-- Witness for C9 at a concrete registry: after destroying session 1, looking
it up reports NotFound. -/
theorem destroy_idempotent_lookup_notfound_witness :
    lookup
        (destroy
          { sessions := [{ sid := 1, createdAt := 0, lastActivity := 0, ttl := 60 }],
            rooms := [{ rid := 5, members := [1, 2] }] } 1) 1 = none :=
  (destroy_idempotent_lookup_notfound
      { sessions := [{ sid := 1, createdAt := 0, lastActivity := 0, ttl := 60 }],
        rooms := [{ rid := 5, members := [1, 2] }] } 1).1

end Veil
